import Mathlib

/-!
Verification of the banner-events ELT pipeline (`gcp_function/main.py`).

The development shallowly embeds the two halves of the transform core:

* the row-level pandas normalization performed by `preprocess_dataframe`
  (banner-identifier decomposition, category splitting, geography
  standardization, numeric coercion, reindex to the fixed column contract); and
* the BigQuery transformation SQL issued by `run_transformation_sql`
  (the four dimension `MERGE` statements and the guarded `INSERT` into
  `fact_events`), including SQL three-valued `NOT IN` semantics, `COALESCE`
  null-as-empty-string composite keys, `LEFT JOIN` fan-out, and the
  error behaviour of the non-`SAFE` `PARSE_TIMESTAMP`.

Machine numerics are modelled over `Int` plus a non-integral marker: a
numeric cell is either an integral value or a non-integral float carrying
its truncated integer part.  The magnitude of numeric payloads
(`sentiment`, `unit_value`) is never inspected by any property below, but
integrality matters: the `astype('Int64')` cast of the `id` column raises
on a non-integral value, and the model tracks that error path.  Numeric
text is modelled for optional-sign decimal forms; scientific notation and
infinities are outside the model (no claim exercises them).
`FARM_FINGERPRINT` is an arbitrary deterministic function
`String → Int`, passed as a parameter `fp` (no verified property depends on
its values, only on where the code applies it).
-/

/-! ### Banner-identifier decomposition (`main.py` lines 76-77)

`df['banner_id'].str.extract(r'(\d+x\d+)', expand=False)` returns, per cell,
the leftmost substring matching `\d+x\d+` (Python `re.search` semantics:
the scan advances one character at a time; at a given start the first `\d+`
is the maximal digit run, which must be followed by `x` and at least one
digit; the second `\d+` is again maximal).

`df['banner_id'].str.replace(r'_(\d+x\d+)$', '', regex=True)` removes an
end-anchored `_digits x digits` suffix when present (at most one match can
end at the end of the string), and otherwise leaves the cell unchanged.
-/

/-- Attempt to match `\d+x\d+` anchored at the head of the character list,
returning the (greedy) matched characters. -/
def dimAt (cs : List Char) : Option (List Char) :=
  match cs.takeWhile (fun c => c.isDigit), cs.dropWhile (fun c => c.isDigit) with
  | [], _ => none
  | d1, 'x' :: r2 =>
    match r2.takeWhile (fun c => c.isDigit) with
    | [] => none
    | d2 => some (d1 ++ 'x' :: d2)
  | _, _ => none

/-- Leftmost match of `\d+x\d+` anywhere in the character list
(Python `re.search` / `Series.str.extract` semantics). -/
def scanDim : List Char → Option (List Char)
  | [] => none
  | c :: rest =>
    match dimAt (c :: rest) with
    | some m => some m
    | none => scanDim rest

/-- Remove an end-anchored `_(\d+x\d+)$` suffix, parsing from the right:
the trailing maximal digit run, a preceding `x`, a preceding maximal digit
run, and a preceding `_`.  If the shape is absent the list is unchanged
(Python `re.sub` with this end-anchored pattern). -/
def stripDim (cs : List Char) : List Char :=
  match cs.reverse.takeWhile (fun c => c.isDigit), cs.reverse.dropWhile (fun c => c.isDigit) with
  | [], _ => cs
  | _, [] => cs
  | _ :: _, 'x' :: r2 =>
    match r2.takeWhile (fun c => c.isDigit), r2.dropWhile (fun c => c.isDigit) with
    | [], _ => cs
    | _ :: _, '_' :: r4 => r4.reverse
    | _, _ => cs
  | _, _ => cs

/-- `banner_size` cell transform on a string: the leftmost `\d+x\d+`
substring, if any (`str.extract` yields NaN when the pattern is absent). -/
def bannerSizeOfStr (s : String) : Option String :=
  (scanDim s.data).map fun cs => String.mk cs

/-- `banner_name` cell transform on a string: the identifier with an
end-anchored `_digitsxdigits` suffix removed, otherwise unchanged. -/
def bannerNameOfStr (s : String) : String :=
  String.mk (stripDim s.data)

/-! ### Category splitting (`main.py` lines 80-83)

`df['category'].str.strip('/')` removes every leading and trailing `/`;
`.str.split('/', expand=True)` splits on `/` with Python semantics
(`''.split('/') == ['']`), padding shorter rows with nulls; `.get(k)`
returns the `k`-th piece when the row has one and null otherwise (a column
that exists for no row and a null cell are observationally the same null).
-/

/-- Python `str.split('/')` on a character list: always returns at least one
(possibly empty) segment. -/
def splitSlash : List Char → List (List Char)
  | [] => [[]]
  | c :: rest =>
    if c = '/' then [] :: splitSlash rest
    else
      match splitSlash rest with
      | [] => [[c]]
      | h :: t => (c :: h) :: t

/-- Python `str.strip('/')`: drop every leading and trailing `/`. -/
def trimSlash (cs : List Char) : List Char :=
  ((cs.dropWhile (fun c => c = '/')).reverse.dropWhile (fun c => c = '/')).reverse

/-- Join segments with `/` separators (inverse of `splitSlash` on
slash-free segments). -/
def joinSlash : List (List Char) → List Char
  | [] => []
  | [x] => x
  | x :: y :: t => x ++ '/' :: joinSlash (y :: t)

/-- The category segments of a string cell: strip the surrounding slashes,
then split on `/`. -/
def catSegsStr (s : String) : List String :=
  (splitSlash (trimSlash s.data)).map fun cs => String.mk cs

/-- `category_l(k+1)` of a category string: the `k`-th segment when present,
null otherwise. -/
def catLevel (k : Nat) (s : String) : Option String :=
  (catSegsStr s)[k]?

/-- Nonempty all-digit segments, the two components of a `\d+x\d+` match. -/
def isDimParts (d1 d2 : List Char) : Prop :=
  d1 ≠ [] ∧ d2 ≠ [] ∧ (∀ c ∈ d1, c.isDigit) ∧ (∀ c ∈ d2, c.isDigit)

/-! ### The pandas batch model (`preprocess_dataframe`, `main.py` lines 18-111)

`pd.DataFrame(events_json)` builds a frame whose columns are the union of
the record keys; a record lacking a key of an existing column holds NaN
there.  Accessing a column that exists in no record raises `KeyError`
(this happens for `df['event']`, `df['amount']`, `df['banner_id']`,
`df['category']`, `df['country']`, `df['city']`, `df['id']`,
`df['sentiment']`, in that source order).  A `.str` accessor on a column
holding no string value raises (`AttributeError`, the non-object-dtype
case); `.str` operations on individual non-string cells yield NaN.

A cell is NaN, a string, an integral number, or a non-integral float.
Numeric magnitude is never inspected by a verified property, but
integrality is: `pd.to_numeric(df['id'], errors='coerce').astype('Int64')`
(line 95) raises `TypeError` when any coerced id value is a non-integral
float, and the model keeps that distinction.
-/

/-- A pandas cell: NaN / missing, a string, an integral number, or a
non-integral float (carrying its truncated integer part, whose magnitude
no verified property inspects). -/
inductive PVal
  | na : PVal
  | s : String → PVal
  | n : Int → PVal
  | f : Int → PVal
deriving DecidableEq

/-- One raw JSON record: an association list of field name to value. -/
abbrev Rec := List (String × PVal)

/-- A column exists in the frame iff some record carries the key. -/
def colPresent (recs : List Rec) (c : String) : Bool :=
  recs.any fun r => r.any fun kv => kv.1 = c

/-- The cell of record `r` in column `c`: NaN when the record lacks the key
(pandas fills NaN for records missing a key of an existing column). -/
def cellOf (r : Rec) (c : String) : PVal :=
  match r.find? (fun kv => kv.1 = c) with
  | some kv => kv.2
  | none => PVal.na

/-- A column supports the `.str` accessor iff it holds at least one string
value (the object-dtype approximation: an all-numeric or all-NaN column
raises `AttributeError` on `.str`). -/
def hasStringVal (recs : List Rec) (c : String) : Bool :=
  recs.any fun r =>
    match cellOf r c with
    | PVal.s _ => true
    | _ => false

/-- `get_unit` (`main.py` lines 66-69) applied to an `event` cell:
`'dwell'` gives seconds, `'scroll'` gives pixels, anything else (numbers
and NaN included) gives count. -/
def getUnitCell (v : PVal) : PVal :=
  if v = PVal.s "dwell" then PVal.s "seconds"
  else if v = PVal.s "scroll" then PVal.s "pixels"
  else PVal.s "count"

/-- Parse an unsigned decimal: a digit run with an optional fractional
part (at least one of the two nonempty, as Python's `float` accepts `1.`
and `.5`).  Returns the truncated integer part and whether the value is
integral — `1`, `1.`, `1.0` are integral, `1.5` and `.5` are not. -/
def parseNumCore (ds : List Char) : Option (Int × Bool) :=
  match ds.takeWhile (fun c => c.isDigit), ds.dropWhile (fun c => c.isDigit) with
  | digits, rest =>
    let v : Int := Int.ofNat (digits.foldl (fun acc c => acc * 10 + (c.toNat - '0'.toNat)) 0)
    match digits, rest with
    | [], [] => none
    | _ :: _, [] => some (v, true)
    | digits2, '.' :: frac =>
      if (digits2 = [] → frac ≠ []) ∧ ∀ c ∈ frac, c.isDigit
      then some (v, frac.all fun c => decide (c = '0'))
      else none
    | _, _ => none

/-- ASCII whitespace, the characters `to_numeric` tolerates around a
number. -/
def isSpaceChar (c : Char) : Bool :=
  decide (c = ' ' ∨ c = '\t' ∨ c = '\n' ∨ c = '\r')

/-- Drop surrounding whitespace (a character-level `str.strip()`). -/
def trimWs (cs : List Char) : List Char :=
  ((cs.dropWhile isSpaceChar).reverse.dropWhile isSpaceChar).reverse

/-- Parse an optional sign plus a decimal number
(`pd.to_numeric(errors='coerce')` on decimal text): the truncated integer
part and whether the value is integral. -/
def parseNumStr (s : String) : Option (Int × Bool) :=
  match trimWs s.data with
  | '-' :: rest => (parseNumCore rest).map fun p => (-p.1, p.2)
  | cs => parseNumCore cs

/-- Numeric coercion of a cell (`pd.to_numeric(..., errors='coerce')`):
numbers pass through (keeping their integrality), numeric text parses to
an integral or non-integral number, everything else becomes NaN. -/
def coerceNumCell (v : PVal) : PVal :=
  match v with
  | PVal.n k => PVal.n k
  | PVal.f k => PVal.f k
  | PVal.s str =>
    match parseNumStr str with
    | some (k, true) => PVal.n k
    | some (k, false) => PVal.f k
    | none => PVal.na
  | PVal.na => PVal.na

/-- Python `str.title()`: uppercase an alphabetic character that follows a
non-alphabetic one, lowercase the rest. -/
def titleChars : Bool → List Char → List Char
  | _, [] => []
  | prev, c :: rest =>
    (if c.isAlpha then (if prev then c.toLower else c.toUpper) else c) ::
      titleChars c.isAlpha rest

/-- Python `str.title()` on a string. -/
def titleCase (s : String) : String :=
  String.mk (titleChars false s.data)

/-- `.str.title()` on a cell: NaN and numbers stay NaN. -/
def titleCell (v : PVal) : PVal :=
  match v with
  | PVal.s t => PVal.s (titleCase t)
  | _ => PVal.na

/-- The `COUNTRY_MAPPING` dictionary of `main.py` lines 27-46 (keys
lowercase), reproduced byte-for-byte including its mojibake entries. -/
def countryMapping : List (String × String) :=
  [("usa", "United States"),
   ("u.s.a.", "United States"),
   ("united states of america", "United States"),
   ("uk", "United Kingdom"),
   ("great britain", "United Kingdom"),
   ("england", "United Kingdom"),
   ("t端rkiye", "Turkey"),
   ("deutschland", "Germany"),
   ("espa単a", "Spain"),
   ("brasil", "Brazil"),
   ("the netherlands", "Netherlands"),
   ("south korea", "South Korea"),
   ("new zealand", "New Zealand")]

/-- The `CITY_MAPPING` dictionary of `main.py` lines 49-62. -/
def cityMapping : List (String × String) :=
  [("newyork", "New York"),
   ("nyc", "New York"),
   ("st petersburg", "Saint Petersburg"),
   ("stpetersburg", "Saint Petersburg"),
   ("frankfurt am main", "Frankfurt"),
   ("frankfurtammain", "Frankfurt"),
   ("sf", "San Francisco"),
   ("sanfran", "San Francisco"),
   ("la", "Los Angeles"),
   ("losangeles", "Los Angeles"),
   ("sao paulo", "S達o Paulo"),
   ("saopaulo", "S達o Paulo")]

/-- The lookup key for a country cell
(`.str.lower().str.strip().fillna('')`, `main.py` line 87). -/
def countryKey (v : PVal) : String :=
  match v with
  | PVal.s t => t.toLower.trim
  | _ => ""

/-- Standardize a country cell (`main.py` line 89): mapped values take the
canonical form; unmapped values fall back to the title-cased original. -/
def countryCell (v : PVal) : PVal :=
  match countryMapping.lookup (countryKey v) with
  | some canon => PVal.s canon
  | none => titleCell v

/-- The lookup key for a city cell
(`.str.lower().str.replace(" ", "").str.strip().fillna('')`, line 91). -/
def cityKey (v : PVal) : String :=
  match v with
  | PVal.s t => ((t.toLower).replace " " "").trim
  | _ => ""

/-- Standardize a city cell (`main.py` line 92). -/
def cityCell (v : PVal) : PVal :=
  match cityMapping.lookup (cityKey v) with
  | some canon => PVal.s canon
  | none => titleCell v

/-- `banner_name` of a `banner_id` cell (`.str.replace` on line 77). -/
def bannerNameCell (v : PVal) : PVal :=
  match v with
  | PVal.s t => PVal.s (bannerNameOfStr t)
  | _ => PVal.na

/-- `banner_size` of a `banner_id` cell (`.str.extract` on line 76). -/
def bannerSizeCell (v : PVal) : PVal :=
  match v with
  | PVal.s t =>
    match bannerSizeOfStr t with
    | some m => PVal.s m
    | none => PVal.na
  | _ => PVal.na

/-- `category_l(k+1)` of a `category` cell (`main.py` lines 80-83); a cell
with too few segments — or a batch-wide missing split column — is null
either way, so the per-cell view is observationally faithful. -/
def catCell (k : Nat) (v : PVal) : PVal :=
  match v with
  | PVal.s t =>
    match catLevel k t with
    | some seg => PVal.s seg
    | none => PVal.na
  | _ => PVal.na

/-- A pass-through column of the final reindex: the record's cell when the
column exists in the batch, NaN otherwise. -/
def passCell (recs : List Rec) (r : Rec) (c : String) : PVal :=
  if colPresent recs c then cellOf r c else PVal.na

/-- The fixed staging-table column contract (`final_columns`,
`main.py` lines 100-105). -/
def finalColumns : List String :=
  ["id", "url", "element_id", "event", "sentiment", "unity_user_id",
   "entities", "ip", "country", "city", "issue_date",
   "banner_name", "banner_size", "unit_name", "unit_value",
   "category_l1", "category_l2", "category_l3"]

/-- The `astype('Int64')` cast of the coerced `id` column succeeds iff no
coerced value is a non-integral float (`main.py` line 95; NaN and
integral values cast fine, a value like `1.5` raises `TypeError`).  The
`astype('float64')` casts of `sentiment` and `unit_value` never raise on
coerced columns. -/
def intCastOk (recs : List Rec) : Bool :=
  recs.all fun r =>
    match coerceNumCell (cellOf r "id") with
    | PVal.f _ => false
    | _ => true

/-- The column-level failure modes of `preprocess_dataframe`, checked in
source order: a missing required column raises `KeyError`; a string-less
`.str` column raises `AttributeError`; a non-integral coerced `id` value
makes the `Int64` cast of line 95 raise `TypeError`. -/
def preprocessChecks (recs : List Rec) : Except String Unit := do
  let requireCol := fun (c : String) =>
    if colPresent recs c then Except.ok () else Except.error ("KeyError: " ++ c)
  let requireStr := fun (c : String) =>
    if hasStringVal recs c then Except.ok ()
    else Except.error ("AttributeError: .str on non-string column " ++ c)
  requireCol "event"
  requireCol "amount"
  requireCol "banner_id"
  requireStr "banner_id"
  requireCol "category"
  requireStr "category"
  requireCol "country"
  requireStr "country"
  requireCol "city"
  requireStr "city"
  requireCol "id"
  if intCastOk recs then Except.ok ()
  else Except.error "TypeError: cannot safely cast non-equivalent float64 to int64"
  requireCol "sentiment"

/-- One staging row in the fixed column order of `finalColumns`
(the reindex of `main.py` line 108). -/
def mkRow (recs : List Rec) (r : Rec) : List PVal :=
  [coerceNumCell (cellOf r "id"),
   passCell recs r "url",
   passCell recs r "element_id",
   passCell recs r "event",
   coerceNumCell (cellOf r "sentiment"),
   passCell recs r "unity_user_id",
   passCell recs r "entities",
   passCell recs r "ip",
   countryCell (cellOf r "country"),
   cityCell (cellOf r "city"),
   passCell recs r "issue_date",
   bannerNameCell (cellOf r "banner_id"),
   bannerSizeCell (cellOf r "banner_id"),
   getUnitCell (cellOf r "event"),
   coerceNumCell (cellOf r "amount"),
   catCell 0 (cellOf r "category"),
   catCell 1 (cellOf r "category"),
   catCell 2 (cellOf r "category")]

/-- `preprocess_dataframe`: the column-level checks, then the reindexed
frame `(final_columns, rows)` with one output row per record. -/
def preprocess (recs : List Rec) : Except String (List String × List (List PVal)) :=
  match preprocessChecks recs with
  | Except.error e => Except.error e
  | Except.ok _ => Except.ok (finalColumns, recs.map (mkRow recs))

/-! ### The warehouse model (`run_transformation_sql`, `main.py` lines 114-238)

Tables are lists of typed rows; SQL `NULL` is `Option.none`.  Each `MERGE`
appends the distinct source tuples that match no target row under its `ON`
condition (there is no `WHEN MATCHED` clause, so no row is ever updated or
deleted).  The fact `INSERT` filters staging by the `WHERE` guard — whose
`NOT IN` subquery reads the fact table as of statement start, with SQL
three-valued semantics — then resolves each foreign key by `LEFT JOIN`
(one output row per matching dimension row, a single null-keyed row when
none matches).  `PARSE_TIMESTAMP('%Y-%m-%d %H:%M:%E*S', ...)` returns
`NULL` on a `NULL` argument but errors on a non-null unparsable one,
failing the whole statement; the model evaluates it for the rows that
survive the `WHERE` guard.
-/

deriving instance DecidableEq for Except

/-- A parsed BigQuery timestamp: calendar/clock fields plus the fractional
digit string of `%E*S`. -/
structure Ts where
  year : Nat
  month : Nat
  day : Nat
  hour : Nat
  minute : Nat
  second : Nat
  frac : List Char
deriving DecidableEq

/-- Digit-run value of a character list. -/
def digitsVal (ds : List Char) : Nat :=
  ds.foldl (fun acc c => acc * 10 + (c.toNat - '0'.toNat)) 0

/-- Split a maximal digit run of length 1..4 off the front. -/
def takeDigitRun (cs : List Char) : List Char × List Char :=
  (cs.takeWhile (fun c => c.isDigit), cs.dropWhile (fun c => c.isDigit))

/-- Strict parse of `%Y-%m-%d %H:%M:%E*S`: dash-separated date, one space,
colon-separated clock, optional `.` plus fractional digits, nothing after.
Field ranges are validated; finer calendar validation (days per month) is
not modelled, and no verified property depends on it. -/
def parseTsCore (s : String) : Option Ts :=
  let (y, r1) := takeDigitRun s.data
  if y = [] then none else
  match r1 with
  | '-' :: r2 =>
    let (mo, r3) := takeDigitRun r2
    if mo = [] ∨ ¬ (1 ≤ digitsVal mo ∧ digitsVal mo ≤ 12) then none else
    match r3 with
    | '-' :: r4 =>
      let (d, r5) := takeDigitRun r4
      if d = [] ∨ ¬ (1 ≤ digitsVal d ∧ digitsVal d ≤ 31) then none else
      match r5 with
      | ' ' :: r6 =>
        let (h, r7) := takeDigitRun r6
        if h = [] ∨ ¬ (digitsVal h ≤ 23) then none else
        match r7 with
        | ':' :: r8 =>
          let (mi, r9) := takeDigitRun r8
          if mi = [] ∨ ¬ (digitsVal mi ≤ 59) then none else
          match r9 with
          | ':' :: r10 =>
            let (se, r11) := takeDigitRun r10
            if se = [] ∨ ¬ (digitsVal se ≤ 60) then none else
            let mk : List Char → Ts := fun fr =>
              { year := digitsVal y, month := digitsVal mo, day := digitsVal d,
                hour := digitsVal h, minute := digitsVal mi,
                second := digitsVal se, frac := fr }
            match r11 with
            | [] => some (mk [])
            | '.' :: r12 =>
              if r12 ≠ [] ∧ ∀ c ∈ r12, c.isDigit then some (mk r12) else none
            | _ => none
          | _ => none
        | _ => none
      | _ => none
    | _ => none
  | _ => none

/-- `PARSE_TIMESTAMP` applied to a nullable staging value: `NULL` in,
`NULL` out; a non-null unparsable value errors the whole statement. -/
def sqlParseTs (v : Option String) : Except String (Option Ts) :=
  match v with
  | none => Except.ok none
  | some s =>
    match parseTsCore s with
    | some t => Except.ok (some t)
    | none => Except.error s

/-- `CAST(FORMAT_DATE('%Y%m%d', DATE(ts)) AS INT64)`: the `YYYYMMDD`
integer key of the timestamp's calendar date. -/
def dateKey (t : Ts) : Int :=
  Int.ofNat (t.year * 10000 + t.month * 100 + t.day)

/-- A pre-processed staging row (`staging_raw_events` after the load). -/
structure StagingRow where
  id : Option Int
  url : Option String
  element_id : Option String
  event : Option String
  sentiment : Option Int
  unity_user_id : Option String
  entities : Option String
  ip : Option String
  country : Option String
  city : Option String
  issue_date : Option String
  banner_name : Option String
  banner_size : Option String
  unit_name : Option String
  unit_value : Option Int
  category_l1 : Option String
  category_l2 : Option String
  category_l3 : Option String
deriving DecidableEq

/-- A `dim_user` row. -/
structure DimUserRow where
  user_sk : Int
  user_id : String
deriving DecidableEq

/-- A `dim_location` row. -/
structure DimLocationRow where
  location_sk : Int
  ip_address : String
  country : Option String
  city : Option String
deriving DecidableEq

/-- A `dim_banner` row. -/
structure DimBannerRow where
  banner_sk : Int
  banner_name : String
  banner_size : Option String
deriving DecidableEq

/-- A `dim_content` row. -/
structure DimContentRow where
  content_sk : Int
  url : String
  sentiment : Option Int
  entities : Option String
  category_l1 : Option String
  category_l2 : Option String
  category_l3 : Option String
deriving DecidableEq

/-- A `fact_events` row. -/
structure FactRow where
  event_id : Option Int
  event_timestamp : Option Ts
  time_sk : Option Int
  user_sk : Option Int
  content_sk : Option Int
  banner_sk : Option Int
  location_sk : Option Int
  event_name : Option String
  element_id : Option String
  unit_name : Option String
  unit_value : Option Int
deriving DecidableEq

/-- The warehouse state: the staging table, the four dimensions, the
pre-populated `dim_time` (a list of `YYYYMMDD` surrogate keys), and the
fact table. -/
structure Warehouse where
  staging : List StagingRow
  dim_user : List DimUserRow
  dim_location : List DimLocationRow
  dim_banner : List DimBannerRow
  dim_content : List DimContentRow
  dim_time : List Int
  fact_events : List FactRow
deriving DecidableEq

/-- Generic `MERGE ... WHEN NOT MATCHED THEN INSERT`: append, for each
distinct source tuple matching no target row under `cond`, the row built
by `mk`.  No target row is modified (there is no `WHEN MATCHED` clause). -/
def sqlMerge {σ τ : Type} (source : List σ) (cond : τ → σ → Bool)
    (mk : σ → τ) (T : List τ) : List τ :=
  T ++ (source.filter fun sr => T.all fun t => ! cond t sr).map mk

/-- `SELECT DISTINCT unity_user_id FROM staging WHERE unity_user_id IS NOT
NULL` (`main.py` lines 128-132). -/
def userSource (st : List StagingRow) : List String :=
  (st.filterMap fun s => s.unity_user_id).dedup

/-- `SELECT DISTINCT ip, country, city FROM staging WHERE ip IS NOT NULL`
(lines 143-147). -/
def locationSource (st : List StagingRow) : List (String × Option String × Option String) :=
  (st.filterMap fun s => s.ip.map fun i => (i, s.country, s.city)).dedup

/-- `SELECT DISTINCT banner_name, banner_size FROM staging WHERE
banner_name IS NOT NULL` (lines 158-162). -/
def bannerSource (st : List StagingRow) : List (String × Option String) :=
  (st.filterMap fun s => s.banner_name.map fun n => (n, s.banner_size)).dedup

/-- The source tuple of the `dim_content` merge. -/
structure ContentTuple where
  url : String
  sentiment : Option Int
  entities : Option String
  category_l1 : Option String
  category_l2 : Option String
  category_l3 : Option String
deriving DecidableEq

/-- `SELECT DISTINCT url, sentiment, entities, category_l1, category_l2,
category_l3 FROM staging WHERE url IS NOT NULL` (lines 178-182). -/
def contentSource (st : List StagingRow) : List ContentTuple :=
  (st.filterMap fun s =>
    s.url.map fun u =>
      ContentTuple.mk u s.sentiment s.entities s.category_l1 s.category_l2 s.category_l3).dedup

/-- The `dim_user` merge (`main.py` lines 126-137):
`ON T.user_id = S.unity_user_id`, insert
`(FARM_FINGERPRINT(S.unity_user_id), S.unity_user_id)`. -/
def mergeDimUser (fp : String → Int) (st : List StagingRow)
    (T : List DimUserRow) : List DimUserRow :=
  sqlMerge (userSource st) (fun t uid => decide (t.user_id = uid))
    (fun uid => { user_sk := fp uid, user_id := uid }) T

/-- The `dim_location` merge (lines 141-152): `ON T.ip_address = S.ip`,
insert `(FARM_FINGERPRINT(S.ip), S.ip, S.country, S.city)`. -/
def mergeDimLocation (fp : String → Int) (st : List StagingRow)
    (T : List DimLocationRow) : List DimLocationRow :=
  sqlMerge (locationSource st) (fun t p => decide (t.ip_address = p.1))
    (fun p => { location_sk := fp p.1, ip_address := p.1,
                country := p.2.1, city := p.2.2 }) T

/-- The `dim_banner` merge (lines 156-172): `ON T.banner_name =
S.banner_name AND COALESCE(T.banner_size,'') = COALESCE(S.banner_size,'')`,
insert `(FARM_FINGERPRINT(CONCAT(name, COALESCE(size,''))), name, size)`. -/
def mergeDimBanner (fp : String → Int) (st : List StagingRow)
    (T : List DimBannerRow) : List DimBannerRow :=
  sqlMerge (bannerSource st)
    (fun t p => decide (t.banner_name = p.1 ∧ t.banner_size.getD "" = p.2.getD ""))
    (fun p => { banner_sk := fp (p.1 ++ p.2.getD ""), banner_name := p.1,
                banner_size := p.2 }) T

/-- The `dim_content` merge (lines 176-195): `ON T.url = S.url`, insert
the fingerprinted url with the tuple's attribute payload. -/
def mergeDimContent (fp : String → Int) (st : List StagingRow)
    (T : List DimContentRow) : List DimContentRow :=
  sqlMerge (contentSource st) (fun t p => decide (t.url = p.url))
    (fun p => { content_sk := fp p.url, url := p.url, sentiment := p.sentiment,
                entities := p.entities, category_l1 := p.category_l1,
                category_l2 := p.category_l2, category_l3 := p.category_l3 }) T

/-- The fact `WHERE` guard for a non-null id `i` (`main.py` lines 235-236):
`i NOT IN (SELECT event_id FROM fact_events)` is `TRUE` — under SQL
three-valued semantics — iff no fact row carries `i` and no fact row
carries a `NULL` event id. -/
def idGuard (fact : List FactRow) (i : Int) : Bool :=
  (fact.all fun f => decide (f.event_id ≠ some i)) &&
    (fact.all fun f => decide (f.event_id ≠ none))

/-- The full fact `WHERE` guard: `s.id IS NOT NULL AND s.id NOT IN (...)`. -/
def factGuard (fact : List FactRow) (s : StagingRow) : Bool :=
  match s.id with
  | none => false
  | some i => idGuard fact i

/-- `LEFT JOIN` row multiplicity: one row per match, or a single null row
when nothing matches. -/
def leftJoinOpt {α : Type} (l : List α) : List (Option α) :=
  match l with
  | [] => [none]
  | _ => l.map some

/-- The `dim_time` join matches (line 223-224): rows of `dim_time` equal to
the `YYYYMMDD` key of the parsed timestamp; a null key matches nothing. -/
def timeLookup (times : List Int) (k : Option Int) : List Int :=
  times.filter fun t => decide (k = some t)

/-- The `dim_user` join matches (line 227): `u.user_id = s.unity_user_id`. -/
def userLookup (dim : List DimUserRow) (s : StagingRow) : List DimUserRow :=
  dim.filter fun u => decide (s.unity_user_id = some u.user_id)

/-- The `dim_location` join matches (line 228): `l.ip_address = s.ip`. -/
def locationLookup (dim : List DimLocationRow) (s : StagingRow) : List DimLocationRow :=
  dim.filter fun l => decide (s.ip = some l.ip_address)

/-- The `dim_content` join matches (line 229): `c.url = s.url`. -/
def contentLookup (dim : List DimContentRow) (s : StagingRow) : List DimContentRow :=
  dim.filter fun c => decide (s.url = some c.url)

/-- The `dim_banner` join matches (lines 230-232): name equality plus the
`COALESCE` null-as-empty-string size equality. -/
def bannerLookup (dim : List DimBannerRow) (s : StagingRow) : List DimBannerRow :=
  dim.filter fun b =>
    decide (s.banner_name = some b.banner_name ∧ s.banner_size.getD "" = b.banner_size.getD "")

/-- All fact rows produced for one surviving staging row: the `LEFT JOIN`
product over the five dimension lookups, in the join order of the source
(time, user, location, content, banner), projected through the `SELECT`
list of lines 202-219. -/
def rowCombos (w : Warehouse) (s : StagingRow) (ots : Option Ts) : List FactRow :=
  (leftJoinOpt (timeLookup w.dim_time (ots.map dateKey))).flatMap fun t =>
    (leftJoinOpt (userLookup w.dim_user s)).flatMap fun u =>
      (leftJoinOpt (locationLookup w.dim_location s)).flatMap fun l =>
        (leftJoinOpt (contentLookup w.dim_content s)).flatMap fun c =>
          (leftJoinOpt (bannerLookup w.dim_banner s)).map fun b =>
            { event_id := s.id
              event_timestamp := ots
              time_sk := t
              user_sk := u.map fun x => x.user_sk
              content_sk := c.map fun x => x.content_sk
              banner_sk := b.map fun x => x.banner_sk
              location_sk := l.map fun x => x.location_sk
              event_name := s.event
              element_id := s.element_id
              unit_name := s.unit_name
              unit_value := s.unit_value }

/-- The rows the fact `INSERT` produces for a staging list: rows failing
the `WHERE` guard are skipped; surviving rows parse their `issue_date`
(propagating the `PARSE_TIMESTAMP` error of an unparsable non-null value)
and contribute their join combinations. -/
def factNewRows (w : Warehouse) : List StagingRow → Except String (List FactRow)
  | [] => Except.ok []
  | s :: rest =>
    if factGuard w.fact_events s then
      match sqlParseTs s.issue_date, factNewRows w rest with
      | Except.error e, _ => Except.error e
      | Except.ok _, Except.error e => Except.error e
      | Except.ok ots, Except.ok L => Except.ok (rowCombos w s ots ++ L)
    else factNewRows w rest

/-- The fact `INSERT` statement (`main.py` lines 199-237) over the whole
staging table, reading `fact_events` as of statement start. -/
def factStep (w : Warehouse) : Except String (List FactRow) :=
  factNewRows w w.staging

/-- Commit the rows of a successful fact `INSERT`. -/
def applyFact (w : Warehouse) (new : List FactRow) : Warehouse :=
  { w with fact_events := w.fact_events ++ new }

/-- Key-uniqueness of the dimension tables a fact insert reads: at most one
`dim_time` row per key, one `dim_user` row per `user_id`, one
`dim_location` row per `ip_address`, one `dim_content` row per `url`, and
one `dim_banner` row per `COALESCE`-composite `(name, size)` key. -/
def DimsUnique (w : Warehouse) : Prop :=
  w.dim_time.Nodup ∧
    (w.dim_user.map fun u => u.user_id).Nodup ∧
    (w.dim_location.map fun l => l.ip_address).Nodup ∧
    (w.dim_content.map fun c => c.url).Nodup ∧
    (w.dim_banner.map fun b => (b.banner_name, b.banner_size.getD "")).Nodup

/-! ### Concrete fixtures

Small concrete batches and warehouse states used to instantiate the
verified statements and to exhibit the behaviours of the code on explicit
inputs.  `fpZero` is one concrete stand-in for `FARM_FINGERPRINT` (no
property depends on its values). -/

/-- A staging row with every column null. -/
def s0 : StagingRow :=
  { id := none, url := none, element_id := none, event := none,
    sentiment := none, unity_user_id := none, entities := none, ip := none,
    country := none, city := none, issue_date := none, banner_name := none,
    banner_size := none, unit_name := none, unit_value := none,
    category_l1 := none, category_l2 := none, category_l3 := none }

/-- A fact row with every column null. -/
def f0 : FactRow :=
  { event_id := none, event_timestamp := none, time_sk := none,
    user_sk := none, content_sk := none, banner_sk := none,
    location_sk := none, event_name := none, element_id := none,
    unit_name := none, unit_value := none }

/-- A concrete fingerprint stand-in. -/
def fpZero : String → Int := fun _ => 0

/-- An empty warehouse. -/
def wEmpty : Warehouse :=
  { staging := [], dim_user := [], dim_location := [], dim_banner := [],
    dim_content := [], dim_time := [], fact_events := [] }

/-- Count, in a fact-insert outcome, the inserted rows carrying event id
`i` (an errored statement inserts nothing). -/
def okFactCount (e : Except String (List FactRow)) (i : Int) : Nat :=
  match e with
  | Except.ok L => L.countP fun r => decide (r.event_id = some i)
  | Except.error _ => 0

/-- A batch whose two staging rows carry the same non-null id `7`. -/
def wDupIds : Warehouse :=
  { wEmpty with staging := [{ s0 with id := some 7, event := some "view" },
                           { s0 with id := some 7, event := some "click" }] }

/-- A batch whose two staging rows carry the same non-null id `9`. -/
def wDupIds9 : Warehouse :=
  { wEmpty with staging := [{ s0 with id := some 9 },
                           { s0 with id := some 9, event := some "view" }] }

/-- A batch with one row whose id is non-null and whose timestamp text is
unparsable. -/
def wBadTs : Warehouse :=
  { wEmpty with staging := [{ s0 with id := some 1, issue_date := some "not-a-date" }] }

/-- A warehouse whose fact table already holds a null `event_id` row, with
a fresh non-null staging id. -/
def wNullFact : Warehouse :=
  { wEmpty with staging := [{ s0 with id := some 1 }], fact_events := [f0] }

/-- A single-row batch with id `3` (fixture for instantiating the fact
reconciliation statement). -/
def wSingle3 : Warehouse :=
  { wEmpty with staging := [{ s0 with id := some 3 }] }

/-- The one fact row `factStep wSingle3` inserts. -/
def rSingle3 : FactRow := { f0 with event_id := some 3 }

/-- A single-row batch with id `4`. -/
def wSingle4 : Warehouse :=
  { wEmpty with staging := [{ s0 with id := some 4 }] }

/-- The one fact row `factStep wSingle4` inserts. -/
def rSingle4 : FactRow := { f0 with event_id := some 4 }

/-- Two staging rows with the same ip and differing city attributes. -/
def stDupIp : List StagingRow :=
  [{ s0 with ip := some "9.9.9.9", city := some "Aare" },
   { s0 with ip := some "9.9.9.9", city := some "Bilb" }]

/-- A staging batch with one value for each dimension natural key. -/
def stW6 : List StagingRow :=
  [{ s0 with unity_user_id := some "u1", ip := some "1.2.3.4",
             banner_name := some "b", url := some "http://e" }]

/-- A dimension table holding a banner whose size is the empty string. -/
def dimB7 : List DimBannerRow :=
  [{ banner_sk := 77, banner_name := "bannerA", banner_size := some "" }]

/-- A staging row whose banner size is null. -/
def sNull7 : StagingRow := { s0 with banner_name := some "bannerA", banner_size := none }

/-- A staging row whose banner size is the empty string. -/
def sEmpty7 : StagingRow := { s0 with banner_name := some "bannerA", banner_size := some "" }

/-- The same batch with the non-integral id text `"1.5"`, which coerces to
a non-integral float and makes the `Int64` cast raise. -/
def batchBadId : List Rec :=
  [[("event", PVal.s "dwell"), ("amount", PVal.n 5),
    ("banner_id", PVal.s "sidebar_ad_300x250"), ("category", PVal.s "/News/World/"),
    ("country", PVal.s "usa"), ("city", PVal.s "NYC"),
    ("id", PVal.s "1.5"), ("sentiment", PVal.n 1)]]

/-! ### Properties of the `MERGE` combinator -/

/-- A merge leaves the existing target rows in place, unchanged and in
order: no `WHEN MATCHED` clause exists, so nothing is updated or deleted. -/
theorem sqlMerge_take {σ τ : Type} (source : List σ) (cond : τ → σ → Bool)
    (mk : σ → τ) (T : List τ) :
    (sqlMerge source cond mk T).take T.length = T := by
  simp [sqlMerge, List.take_left]

/-- A merge whose every source tuple already matches some target row
inserts nothing. -/
theorem sqlMerge_no_new {σ τ : Type} {source : List σ} {cond : τ → σ → Bool}
    {mk : σ → τ} {T : List τ}
    (h : ∀ sr ∈ source, ∃ t ∈ T, cond t sr = true) :
    sqlMerge source cond mk T = T := by
  have hnil : (source.filter fun sr => T.all fun t => ! cond t sr) = [] := by
    rw [List.filter_eq_nil_iff]
    intro sr hsr hall
    obtain ⟨t, ht, hc⟩ := h sr hsr
    rw [List.all_eq_true] at hall
    have := hall t ht
    simp [hc] at this
  simp [sqlMerge, hnil]

/-- Re-running a merge on an unchanged staging source inserts zero rows:
every source tuple now matches either its original target row or the row
the first run inserted for it. -/
theorem sqlMerge_idem {σ τ : Type} (source : List σ) (cond : τ → σ → Bool)
    (mk : σ → τ) (T : List τ) (hrefl : ∀ sr, cond (mk sr) sr = true) :
    sqlMerge source cond mk (sqlMerge source cond mk T) = sqlMerge source cond mk T := by
  apply sqlMerge_no_new
  intro sr hsr
  cases hall : T.all fun t => ! cond t sr with
  | false =>
    have hex : ∃ t ∈ T, ¬ (! cond t sr) = true := by
      simpa [List.all_eq_true] using hall
    obtain ⟨t, ht, hc⟩ := hex
    have hc' : cond t sr = true := by
      cases h : cond t sr with
      | true => rfl
      | false => simp [h] at hc
    exact ⟨t, List.mem_append_left _ ht, hc'⟩
  | true =>
    refine ⟨mk sr, List.mem_append_right _ ?_, hrefl sr⟩
    exact List.mem_map_of_mem _ (List.mem_filter.2 ⟨hsr, hall⟩)

/-- A merge preserves natural-key uniqueness when the distinct source
tuples have pairwise-distinct keys, where `cond` is exactly key equality
and `mk` installs the source key. -/
theorem sqlMerge_key_nodup {σ τ κ : Type} [DecidableEq κ]
    (source : List σ) (cond : τ → σ → Bool) (mk : σ → τ) (T : List τ)
    (k : τ → κ) (ks : σ → κ)
    (hcond : ∀ t sr, cond t sr = true ↔ k t = ks sr)
    (hmk : ∀ sr, k (mk sr) = ks sr)
    (hT : (T.map k).Nodup) (hS : (source.map ks).Nodup) :
    ((sqlMerge source cond mk T).map k).Nodup := by
  rw [sqlMerge, List.map_append, List.nodup_append]
  refine ⟨hT, ?_, ?_⟩
  · rw [List.map_map]
    have h1 : (source.filter fun sr => T.all fun t => ! cond t sr).map (k ∘ mk)
        = (source.filter fun sr => T.all fun t => ! cond t sr).map ks := by
      apply List.map_congr_left
      intro a _
      exact hmk a
    rw [h1]
    exact hS.sublist (List.Sublist.map ks (List.filter_sublist source))
  · intro x hx hx'
    obtain ⟨t, ht, rfl⟩ := List.mem_map.1 hx
    obtain ⟨t', ht', heq⟩ := List.mem_map.1 hx'
    obtain ⟨sr, hsr, rfl⟩ := List.mem_map.1 ht'
    have hfil := List.mem_filter.1 hsr
    rw [List.all_eq_true] at hfil
    have := hfil.2 t ht
    have hkey : k t = ks sr := by rw [← hmk sr, heq]
    rw [(by simpa using (hcond t sr).2 hkey : cond t sr = true)] at this
    simp at this

/-- Re-running the `dim_user` merge on an unchanged staging batch is the
identity. -/
theorem mergeDimUser_idem (fp : String → Int) (st : List StagingRow)
    (T : List DimUserRow) :
    mergeDimUser fp st (mergeDimUser fp st T) = mergeDimUser fp st T := by
  unfold mergeDimUser
  exact sqlMerge_idem _ _ _ _ fun uid => by simp

/-- Re-running the `dim_location` merge on an unchanged staging batch is
the identity. -/
theorem mergeDimLocation_idem (fp : String → Int) (st : List StagingRow)
    (T : List DimLocationRow) :
    mergeDimLocation fp st (mergeDimLocation fp st T) = mergeDimLocation fp st T := by
  unfold mergeDimLocation
  exact sqlMerge_idem _ _ _ _ fun p => by simp

/-- Re-running the `dim_banner` merge on an unchanged staging batch is the
identity (the inserted row matches its source tuple under the `COALESCE`
condition). -/
theorem mergeDimBanner_idem (fp : String → Int) (st : List StagingRow)
    (T : List DimBannerRow) :
    mergeDimBanner fp st (mergeDimBanner fp st T) = mergeDimBanner fp st T := by
  unfold mergeDimBanner
  exact sqlMerge_idem _ _ _ _ fun p => by simp

/-- Re-running the `dim_content` merge on an unchanged staging batch is the
identity. -/
theorem mergeDimContent_idem (fp : String → Int) (st : List StagingRow)
    (T : List DimContentRow) :
    mergeDimContent fp st (mergeDimContent fp st T) = mergeDimContent fp st T := by
  unfold mergeDimContent
  exact sqlMerge_idem _ _ _ _ fun p => by simp

/-- C2: the Dimensional Merge Engine is idempotent for every dimension
(`dim_user`, `dim_location`, `dim_banner`, `dim_content`): re-running the
merge with an unchanged staging batch inserts zero additional rows — the
second run returns the table unchanged — and no existing dimension row is
ever updated (the first `|T|` rows of the merged table are exactly the
original table, in place and unmodified). -/
theorem dim_merge_idempotent (fp : String → Int) (st : List StagingRow)
    (TU : List DimUserRow) (TL : List DimLocationRow)
    (TB : List DimBannerRow) (TC : List DimContentRow) :
    (mergeDimUser fp st (mergeDimUser fp st TU) = mergeDimUser fp st TU
      ∧ (mergeDimUser fp st TU).take TU.length = TU)
    ∧ (mergeDimLocation fp st (mergeDimLocation fp st TL) = mergeDimLocation fp st TL
      ∧ (mergeDimLocation fp st TL).take TL.length = TL)
    ∧ (mergeDimBanner fp st (mergeDimBanner fp st TB) = mergeDimBanner fp st TB
      ∧ (mergeDimBanner fp st TB).take TB.length = TB)
    ∧ (mergeDimContent fp st (mergeDimContent fp st TC) = mergeDimContent fp st TC
      ∧ (mergeDimContent fp st TC).take TC.length = TC) :=
  ⟨⟨mergeDimUser_idem fp st TU, sqlMerge_take _ _ _ _⟩,
   ⟨mergeDimLocation_idem fp st TL, sqlMerge_take _ _ _ _⟩,
   ⟨mergeDimBanner_idem fp st TB, sqlMerge_take _ _ _ _⟩,
   ⟨mergeDimContent_idem fp st TC, sqlMerge_take _ _ _ _⟩⟩

/-- The `dim_user` merge preserves `user_id` uniqueness unconditionally:
its source is the deduplicated list of non-null staging user ids, which is
its own key. -/
theorem mergeDimUser_key_nodup (fp : String → Int) (st : List StagingRow)
    (T : List DimUserRow) (hT : (T.map fun u => u.user_id).Nodup) :
    ((mergeDimUser fp st T).map fun u => u.user_id).Nodup := by
  unfold mergeDimUser
  refine sqlMerge_key_nodup _ _ _ _ (fun (u : DimUserRow) => u.user_id) (fun (uid : String) => uid) ?_ ?_ hT ?_
  · intro t sr
    simp
  · intro sr
    rfl
  · simpa using List.nodup_dedup _

/-- The `dim_location` merge preserves `ip_address` uniqueness provided
the distinct staging `(ip, country, city)` tuples have pairwise-distinct
ips. -/
theorem mergeDimLocation_key_nodup (fp : String → Int) (st : List StagingRow)
    (T : List DimLocationRow) (hT : (T.map fun l => l.ip_address).Nodup)
    (hS : ((locationSource st).map fun p => p.1).Nodup) :
    ((mergeDimLocation fp st T).map fun l => l.ip_address).Nodup := by
  unfold mergeDimLocation
  refine sqlMerge_key_nodup _ _ _ _ (fun (l : DimLocationRow) => l.ip_address)
    (fun (p : String × Option String × Option String) => p.1) ?_ ?_ hT hS
  · intro t sr
    simp
  · intro sr
    rfl

/-- The `dim_banner` merge preserves uniqueness of the `COALESCE`-composite
`(name, size)` key provided the distinct staging banner tuples have
pairwise-distinct composite keys. -/
theorem mergeDimBanner_key_nodup (fp : String → Int) (st : List StagingRow)
    (T : List DimBannerRow)
    (hT : (T.map fun b => (b.banner_name, b.banner_size.getD "")).Nodup)
    (hS : ((bannerSource st).map fun p => (p.1, p.2.getD "")).Nodup) :
    ((mergeDimBanner fp st T).map fun b => (b.banner_name, b.banner_size.getD "")).Nodup := by
  unfold mergeDimBanner
  refine sqlMerge_key_nodup _ _ _ _
    (fun (b : DimBannerRow) => (b.banner_name, b.banner_size.getD ""))
    (fun (p : String × Option String) => (p.1, p.2.getD "")) ?_ ?_ hT hS
  · intro t sr
    simp [Prod.ext_iff]
  · intro sr
    rfl

/-- The `dim_content` merge preserves `url` uniqueness provided the
distinct staging content tuples have pairwise-distinct urls. -/
theorem mergeDimContent_key_nodup (fp : String → Int) (st : List StagingRow)
    (T : List DimContentRow) (hT : (T.map fun c => c.url).Nodup)
    (hS : ((contentSource st).map fun p => p.url).Nodup) :
    ((mergeDimContent fp st T).map fun c => c.url).Nodup := by
  unfold mergeDimContent
  refine sqlMerge_key_nodup _ _ _ _ (fun (c : DimContentRow) => c.url)
    (fun (p : ContentTuple) => p.url) ?_ ?_ hT hS
  · intro t sr
    simp
  · intro sr
    rfl

/-- C6 counterexample: a staging batch pairing the same natural key
(`ip = "9.9.9.9"`) with differing attribute values makes the
`dim_location` merge insert two rows with the same natural key into an
empty table, so the claimed per-key uniqueness fails on the code. -/
theorem dim_location_duplicate_key_counterexample :
    ((mergeDimLocation fpZero stDupIp []).map fun l => l.ip_address)
      = ["9.9.9.9", "9.9.9.9"] := by
  decide

/-- C6 (amended): each dimension keeps its natural key unique — and never
updates or deletes an existing row — provided the staging batch is
key-functional, i.e. its distinct source tuples carry pairwise-distinct
natural keys (for `dim_user` this is automatic, the key being the whole
tuple; for the others it fails exactly when one natural key appears with
two different attribute payloads, the case of the counterexample). -/
theorem dim_natural_key_unique_amended (fp : String → Int) (st : List StagingRow)
    (TU : List DimUserRow) (TL : List DimLocationRow)
    (TB : List DimBannerRow) (TC : List DimContentRow)
    (hTU : (TU.map fun u => u.user_id).Nodup)
    (hTL : (TL.map fun l => l.ip_address).Nodup)
    (hTB : (TB.map fun b => (b.banner_name, b.banner_size.getD "")).Nodup)
    (hTC : (TC.map fun c => c.url).Nodup)
    (hSL : ((locationSource st).map fun p => p.1).Nodup)
    (hSB : ((bannerSource st).map fun p => (p.1, p.2.getD "")).Nodup)
    (hSC : ((contentSource st).map fun p => p.url).Nodup) :
    (((mergeDimUser fp st TU).map fun u => u.user_id).Nodup
      ∧ (mergeDimUser fp st TU).take TU.length = TU)
    ∧ (((mergeDimLocation fp st TL).map fun l => l.ip_address).Nodup
      ∧ (mergeDimLocation fp st TL).take TL.length = TL)
    ∧ (((mergeDimBanner fp st TB).map fun b => (b.banner_name, b.banner_size.getD "")).Nodup
      ∧ (mergeDimBanner fp st TB).take TB.length = TB)
    ∧ (((mergeDimContent fp st TC).map fun c => c.url).Nodup
      ∧ (mergeDimContent fp st TC).take TC.length = TC) :=
  ⟨⟨mergeDimUser_key_nodup fp st TU hTU, sqlMerge_take _ _ _ _⟩,
   ⟨mergeDimLocation_key_nodup fp st TL hTL hSL, sqlMerge_take _ _ _ _⟩,
   ⟨mergeDimBanner_key_nodup fp st TB hTB hSB, sqlMerge_take _ _ _ _⟩,
   ⟨mergeDimContent_key_nodup fp st TC hTC hSC, sqlMerge_take _ _ _ _⟩⟩

/-- C6 witness: the amended statement instantiated at a concrete
key-functional batch over empty dimension tables. -/
theorem dim_natural_key_unique_amended_witness :
    (((mergeDimUser fpZero stW6 []).map fun u => u.user_id).Nodup
      ∧ (mergeDimUser fpZero stW6 []).take ([] : List DimUserRow).length = [])
    ∧ (((mergeDimLocation fpZero stW6 []).map fun l => l.ip_address).Nodup
      ∧ (mergeDimLocation fpZero stW6 []).take ([] : List DimLocationRow).length = [])
    ∧ (((mergeDimBanner fpZero stW6 []).map
          fun b => (b.banner_name, b.banner_size.getD "")).Nodup
      ∧ (mergeDimBanner fpZero stW6 []).take ([] : List DimBannerRow).length = [])
    ∧ (((mergeDimContent fpZero stW6 []).map fun c => c.url).Nodup
      ∧ (mergeDimContent fpZero stW6 []).take ([] : List DimContentRow).length = []) :=
  dim_natural_key_unique_amended fpZero stW6 [] [] [] []
    (by decide) (by decide) (by decide) (by decide)
    (by decide) (by decide) (by decide)

/-- C7: composite-key equality treats a null component as the empty string
in both the dimension merge and the fact foreign-key lookup: a staging row
with a null `banner_size` matches — and does not duplicate — a `dim_banner`
row whose size is the empty string, and a null-size row and an
empty-string-size row with the same name resolve exactly the same lookup
rows, hence the same banner surrogate key. -/
theorem banner_null_empty_composite_key (fp : String → Int)
    (T : List DimBannerRow) (b : DimBannerRow) (n : String) (s t : StagingRow)
    (hbT : b ∈ T) (hbn : b.banner_name = n) (hbs : b.banner_size = some "")
    (hs : s.banner_name = some n) (hss : s.banner_size = none)
    (ht : t.banner_name = some n) (hts : t.banner_size = some "") :
    mergeDimBanner fp [s] T = T
    ∧ b ∈ bannerLookup T s
    ∧ bannerLookup T s = bannerLookup T t
    ∧ ((bannerLookup T s).map fun x => x.banner_sk)
        = ((bannerLookup T t).map fun x => x.banner_sk) := by
  have hsource : bannerSource [s] = [(n, none)] := by
    simp [bannerSource, List.filterMap, hs, hss]
  have hmatch : ∀ x ∈ bannerSource [s], ∃ u ∈ T,
      decide (u.banner_name = x.1 ∧ u.banner_size.getD "" = x.2.getD "") = true := by
    intro x hx
    rw [hsource] at hx
    simp at hx
    subst hx
    exact ⟨b, hbT, by simp [hbn, hbs]⟩
  have heqlookup : bannerLookup T s = bannerLookup T t := by
    unfold bannerLookup
    apply List.filter_congr
    intro x _
    simp [hs, hss, ht, hts]
  refine ⟨?_, ?_, heqlookup, by rw [heqlookup]⟩
  · unfold mergeDimBanner
    exact sqlMerge_no_new hmatch
  · unfold bannerLookup
    exact List.mem_filter.2 ⟨hbT, by simp [hs, hss, hbn, hbs]⟩

/-- C7 witness: the statement instantiated at a one-row dimension table
holding an empty-string size and at concrete staging rows. -/
theorem banner_null_empty_composite_key_witness :
    mergeDimBanner fpZero [sNull7] dimB7 = dimB7
    ∧ (⟨77, "bannerA", some ""⟩ : DimBannerRow) ∈ bannerLookup dimB7 sNull7
    ∧ bannerLookup dimB7 sNull7 = bannerLookup dimB7 sEmpty7
    ∧ ((bannerLookup dimB7 sNull7).map fun x => x.banner_sk)
        = ((bannerLookup dimB7 sEmpty7).map fun x => x.banner_sk) :=
  banner_null_empty_composite_key fpZero dimB7 ⟨77, "bannerA", some ""⟩ "bannerA"
    sNull7 sEmpty7 (by decide) (by decide) (by decide)
    (by decide) (by decide) (by decide) (by decide)

/-! ### Properties of the fact `INSERT` -/

/-- A filter by equality of a key projection keeps at most one element of
a list whose keys are pairwise distinct. -/
theorem length_filter_key_le_one {α κ : Type} [DecidableEq κ]
    (l : List α) (f : α → κ) (k0 : κ) (h : (l.map f).Nodup) :
    (l.filter fun a => decide (f a = k0)).length ≤ 1 := by
  induction l with
  | nil => simp
  | cons a t ih =>
    rw [List.map_cons, List.nodup_cons] at h
    by_cases hfa : f a = k0
    · have hnil : (t.filter fun a => decide (f a = k0)) = [] := by
        rw [List.filter_eq_nil_iff]
        intro b hb
        simp only [decide_eq_true_eq]
        intro hbk
        exact h.1 (by rw [hfa, ← hbk]; exact List.mem_map_of_mem f hb)
      simp [List.filter_cons, hfa, hnil]
    · simp only [List.filter_cons, hfa]
      simpa using ih h.2

/-- At most one `dim_time` match per staging row when time keys are
pairwise distinct. -/
theorem timeLookup_len (times : List Int) (k : Option Int) (h : times.Nodup) :
    (timeLookup times k).length ≤ 1 := by
  cases k with
  | none => simp [timeLookup]
  | some k0 =>
    have : timeLookup times (some k0) = times.filter fun t => decide (t = k0) := by
      unfold timeLookup
      apply List.filter_congr
      intro t _
      simp [eq_comm]
    rw [this]
    exact length_filter_key_le_one times (fun t => t) k0 (by simpa using h)

/-- At most one `dim_user` match per staging row when `user_id` is unique. -/
theorem userLookup_len (dim : List DimUserRow) (s : StagingRow)
    (h : (dim.map fun u => u.user_id).Nodup) : (userLookup dim s).length ≤ 1 := by
  cases huid : s.unity_user_id with
  | none => simp [userLookup, huid]
  | some uid =>
    have : userLookup dim s = dim.filter fun u => decide (u.user_id = uid) := by
      unfold userLookup
      apply List.filter_congr
      intro u _
      simp [huid, eq_comm]
    rw [this]
    exact length_filter_key_le_one dim (fun u => u.user_id) uid h

/-- At most one `dim_location` match per staging row when `ip_address` is
unique. -/
theorem locationLookup_len (dim : List DimLocationRow) (s : StagingRow)
    (h : (dim.map fun l => l.ip_address).Nodup) : (locationLookup dim s).length ≤ 1 := by
  cases hip : s.ip with
  | none => simp [locationLookup, hip]
  | some ip0 =>
    have : locationLookup dim s = dim.filter fun l => decide (l.ip_address = ip0) := by
      unfold locationLookup
      apply List.filter_congr
      intro l _
      simp [hip, eq_comm]
    rw [this]
    exact length_filter_key_le_one dim (fun l => l.ip_address) ip0 h

/-- At most one `dim_content` match per staging row when `url` is unique. -/
theorem contentLookup_len (dim : List DimContentRow) (s : StagingRow)
    (h : (dim.map fun c => c.url).Nodup) : (contentLookup dim s).length ≤ 1 := by
  cases hurl : s.url with
  | none => simp [contentLookup, hurl]
  | some u0 =>
    have : contentLookup dim s = dim.filter fun c => decide (c.url = u0) := by
      unfold contentLookup
      apply List.filter_congr
      intro c _
      simp [hurl, eq_comm]
    rw [this]
    exact length_filter_key_le_one dim (fun c => c.url) u0 h

/-- At most one `dim_banner` match per staging row when the
`COALESCE`-composite key is unique. -/
theorem bannerLookup_len (dim : List DimBannerRow) (s : StagingRow)
    (h : (dim.map fun b => (b.banner_name, b.banner_size.getD "")).Nodup) :
    (bannerLookup dim s).length ≤ 1 := by
  cases hbn : s.banner_name with
  | none => simp [bannerLookup, hbn]
  | some n0 =>
    have : bannerLookup dim s = dim.filter
        fun b => decide ((b.banner_name, b.banner_size.getD "") = (n0, s.banner_size.getD "")) := by
      unfold bannerLookup
      apply List.filter_congr
      intro b _
      simp [hbn, Prod.ext_iff, eq_comm, and_comm]
    rw [this]
    exact length_filter_key_le_one dim (fun b => (b.banner_name, b.banner_size.getD ""))
      (n0, s.banner_size.getD "") h

/-- A left join always yields at least one row. -/
theorem exists_mem_leftJoinOpt {α : Type} (l : List α) : ∃ o, o ∈ leftJoinOpt l := by
  cases l with
  | nil => exact ⟨none, by simp [leftJoinOpt]⟩
  | cons a t => exact ⟨some a, by simp [leftJoinOpt]⟩

/-- A left join over at most one match yields exactly one row. -/
theorem leftJoinOpt_singleton {α : Type} (l : List α) (h : l.length ≤ 1) :
    ∃ o, leftJoinOpt l = [o] := by
  cases l with
  | nil => exact ⟨none, rfl⟩
  | cons a t =>
    cases t with
    | nil => exact ⟨some a, rfl⟩
    | cons b t2 => simp at h

/-- Every fact row produced for a staging row carries that row's id as its
`event_id` and the parsed timestamp as `event_timestamp`. -/
theorem rowCombos_event_id (w : Warehouse) (s : StagingRow) (ots : Option Ts) :
    ∀ r ∈ rowCombos w s ots, r.event_id = s.id ∧ r.event_timestamp = ots := by
  intro r hr
  simp only [rowCombos, List.mem_flatMap, List.mem_map] at hr
  obtain ⟨t, -, u, -, l, -, c, -, b, -, rfl⟩ := hr
  exact ⟨rfl, rfl⟩

/-- A surviving staging row always produces at least one fact row
(a `LEFT JOIN` never drops the left side). -/
theorem rowCombos_ne_nil (w : Warehouse) (s : StagingRow) (ots : Option Ts) :
    rowCombos w s ots ≠ [] := by
  intro hnil
  obtain ⟨o1, h1⟩ := exists_mem_leftJoinOpt (timeLookup w.dim_time (ots.map dateKey))
  obtain ⟨o2, h2⟩ := exists_mem_leftJoinOpt (userLookup w.dim_user s)
  obtain ⟨o3, h3⟩ := exists_mem_leftJoinOpt (locationLookup w.dim_location s)
  obtain ⟨o4, h4⟩ := exists_mem_leftJoinOpt (contentLookup w.dim_content s)
  obtain ⟨o5, h5⟩ := exists_mem_leftJoinOpt (bannerLookup w.dim_banner s)
  have hmem : FactRow.mk s.id ots o1 (o2.map (fun x => x.user_sk))
      (o4.map (fun x => x.content_sk)) (o5.map (fun x => x.banner_sk))
      (o3.map (fun x => x.location_sk)) s.event s.element_id
      s.unit_name s.unit_value
      ∈ rowCombos w s ots := by
    simp only [rowCombos, List.mem_flatMap, List.mem_map]
    exact ⟨o1, h1, o2, h2, o3, h3, o4, h4, o5, h5, rfl⟩
  rw [hnil] at hmem
  simp at hmem

/-- With key-unique dimension tables, a surviving staging row produces
exactly one fact row, carrying the row's id. -/
theorem rowCombos_singleton (w : Warehouse) (s : StagingRow) (ots : Option Ts)
    (hd : DimsUnique w) : ∃ r, rowCombos w s ots = [r] ∧ r.event_id = s.id := by
  obtain ⟨hT, hU, hL, hC, hB⟩ := hd
  obtain ⟨o1, h1⟩ := leftJoinOpt_singleton _ (timeLookup_len w.dim_time (ots.map dateKey) hT)
  obtain ⟨o2, h2⟩ := leftJoinOpt_singleton _ (userLookup_len w.dim_user s hU)
  obtain ⟨o3, h3⟩ := leftJoinOpt_singleton _ (locationLookup_len w.dim_location s hL)
  obtain ⟨o4, h4⟩ := leftJoinOpt_singleton _ (contentLookup_len w.dim_content s hC)
  obtain ⟨o5, h5⟩ := leftJoinOpt_singleton _ (bannerLookup_len w.dim_banner s hB)
  refine ⟨FactRow.mk s.id ots o1 (o2.map (fun x => x.user_sk))
      (o4.map (fun x => x.content_sk)) (o5.map (fun x => x.banner_sk))
      (o3.map (fun x => x.location_sk)) s.event s.element_id
      s.unit_name s.unit_value, ?_, rfl⟩
  rw [rowCombos, h1, h2, h3, h4, h5]
  simp

/-- Every row a successful fact insert produces stems from a staging row
that passed the `WHERE` guard and carries that row's (non-null) id. -/
theorem factNewRows_mem (w : Warehouse) (l : List StagingRow) (L : List FactRow)
    (h : factNewRows w l = Except.ok L) :
    ∀ r ∈ L, ∃ s ∈ l, factGuard w.fact_events s = true ∧ r.event_id = s.id := by
  induction l generalizing L with
  | nil =>
    simp only [factNewRows, Except.ok.injEq] at h
    subst h
    simp
  | cons s rest ih =>
    simp only [factNewRows] at h
    by_cases hg : factGuard w.fact_events s = true
    · rw [if_pos (by simp [hg])] at h
      cases hp : sqlParseTs s.issue_date with
      | error e => rw [hp] at h; cases h
      | ok ots =>
        cases hr : factNewRows w rest with
        | error e => rw [hp, hr] at h; cases h
        | ok L2 =>
          rw [hp, hr] at h
          rw [Except.ok.injEq] at h
          subst h
          intro r hrr
          rcases List.mem_append.1 hrr with hc | hc
          · exact ⟨s, List.mem_cons_self s rest, hg,
              (rowCombos_event_id w s ots r hc).1⟩
          · obtain ⟨s2, hs2, hgs2, hid⟩ := ih L2 hr r hc
            exact ⟨s2, List.mem_cons_of_mem s hs2, hgs2, hid⟩
    · rw [if_neg (by simp [hg])] at h
      intro r hrr
      obtain ⟨s2, hs2, hgs2, hid⟩ := ih L h r hrr
      exact ⟨s2, List.mem_cons_of_mem s hs2, hgs2, hid⟩

/-- When every staging row fails the `WHERE` guard, the fact insert
succeeds and inserts nothing (no timestamp is parsed for a filtered row). -/
theorem factNewRows_all_blocked (w : Warehouse) (l : List StagingRow)
    (h : ∀ s ∈ l, factGuard w.fact_events s = false) :
    factNewRows w l = Except.ok [] := by
  induction l with
  | nil => rfl
  | cons s rest ih =>
    have hs := h s (List.mem_cons_self s rest)
    simp only [factNewRows]
    rw [if_neg (by simp [hs])]
    exact ih fun s2 hs2 => h s2 (List.mem_cons_of_mem s hs2)

/-- Every staging row that passes the `WHERE` guard contributes at least
one inserted row with its id to a successful fact insert. -/
theorem factNewRows_covers (w : Warehouse) (l : List StagingRow) (L : List FactRow)
    (h : factNewRows w l = Except.ok L) :
    ∀ s ∈ l, factGuard w.fact_events s = true → ∃ r ∈ L, r.event_id = s.id := by
  induction l generalizing L with
  | nil => simp
  | cons s rest ih =>
    simp only [factNewRows] at h
    by_cases hg : factGuard w.fact_events s = true
    · rw [if_pos (by simp [hg])] at h
      cases hp : sqlParseTs s.issue_date with
      | error e => rw [hp] at h; cases h
      | ok ots =>
        cases hr : factNewRows w rest with
        | error e => rw [hp, hr] at h; cases h
        | ok L2 =>
          rw [hp, hr] at h
          rw [Except.ok.injEq] at h
          subst h
          intro s2 hs2 hgs2
          rcases List.mem_cons.1 hs2 with rfl | hmem
          · obtain ⟨r, hr0⟩ := List.exists_mem_of_ne_nil _ (rowCombos_ne_nil w s2 ots)
            exact ⟨r, List.mem_append_left _ hr0,
              (rowCombos_event_id w s2 ots r hr0).1⟩
          · obtain ⟨r, hrL, hrid⟩ := ih L2 hr s2 hmem hgs2
            exact ⟨r, List.mem_append_right _ hrL, hrid⟩
    · rw [if_neg (by simp [hg])] at h
      intro s2 hs2 hgs2
      rcases List.mem_cons.1 hs2 with rfl | hmem
      · exact absurd hgs2 hg
      · exact ih L h s2 hmem hgs2

/-- With key-unique dimension tables and pairwise-distinct non-null
staging ids, a successful fact insert produces, for each id `i`, exactly**
one row when some staging row carries `i` and the `NOT IN` guard lets `i`
through, and zero rows otherwise. -/
theorem factNewRows_count (w : Warehouse) (l : List StagingRow) (L : List FactRow)
    (i : Int) (hd : DimsUnique w) (hnd : (l.filterMap fun s => s.id).Nodup)
    (h : factNewRows w l = Except.ok L) :
    L.countP (fun r => decide (r.event_id = some i))
      = if (l.any fun s => decide (s.id = some i)) && idGuard w.fact_events i
        then 1 else 0 := by
  induction l generalizing L with
  | nil =>
    simp only [factNewRows, Except.ok.injEq] at h
    subst h
    simp
  | cons s rest ih =>
    simp only [factNewRows] at h
    cases hsid : s.id with
    | none =>
      have hg : factGuard w.fact_events s = false := by
        simp [factGuard, hsid]
      rw [if_neg (by simp [hg])] at h
      have hnd2 : (rest.filterMap fun s => s.id).Nodup := by
        simpa [List.filterMap_cons, hsid] using hnd
      rw [ih L hnd2 h]
      simp [hsid]
    | some j =>
      have hfm : ((s :: rest).filterMap fun s => s.id) = j :: rest.filterMap fun s => s.id := by
        simp [List.filterMap_cons, hsid]
      rw [hfm, List.nodup_cons] at hnd
      have hg : factGuard w.fact_events s = idGuard w.fact_events j := by
        simp [factGuard, hsid]
      cases hgj : idGuard w.fact_events j with
      | false =>
        rw [if_neg (by simp [hg, hgj])] at h
        rw [ih L hnd.2 h]
        by_cases hij : j = i
        · subst hij
          simp [hsid, hgj]
        · simp [hsid, hij]
      | true =>
        rw [if_pos (by simp [hg, hgj])] at h
        cases hp : sqlParseTs s.issue_date with
        | error e => rw [hp] at h; cases h
        | ok ots =>
          cases hr : factNewRows w rest with
          | error e => rw [hp, hr] at h; cases h
          | ok L2 =>
            rw [hp, hr] at h
            rw [Except.ok.injEq] at h
            subst h
            obtain ⟨r0, hc0, hid0⟩ := rowCombos_singleton w s ots hd
            rw [List.countP_append, hc0]
            by_cases hij : j = i
            · subst hij
              have hrest : (rest.any fun s => decide (s.id = some j)) = false := by
                cases hany : rest.any fun s => decide (s.id = some j) with
                | false => rfl
                | true =>
                  rw [List.any_eq_true] at hany
                  obtain ⟨s2, hs2, hs2id⟩ := hany
                  rw [decide_eq_true_eq] at hs2id
                  exact absurd (List.mem_filterMap.2 ⟨s2, hs2, hs2id⟩) hnd.1
              rw [ih L2 hnd.2 hr]
              simp [hid0, hsid, hgj, hrest]
            · have hhead : (List.countP (fun r => decide (r.event_id = some i)) [r0]) = 0 := by
                simp [hid0, hsid, hij]
              rw [hhead, ih L2 hnd.2 hr]
              simp [hsid, hij]

/-- Splitting the `NOT IN` guard over an extended fact table. -/
theorem idGuard_append (f1 f2 : List FactRow) (i : Int) :
    idGuard (f1 ++ f2) i = (idGuard f1 i && idGuard f2 i) := by
  simp only [idGuard, List.all_append]
  cases f1.all fun f => decide (f.event_id ≠ some i) <;>
    cases f2.all fun f => decide (f.event_id ≠ some i) <;>
      cases f1.all fun f => decide (f.event_id ≠ none) <;>
        cases f2.all fun f => decide (f.event_id ≠ none) <;> rfl

/-- C10: if the existing `fact_events` table contains a row whose
`event_id` is null, the fact reconciliation step inserts zero rows for
every staging batch — the three-valued `NOT IN` guard is never satisfied,
even for fresh non-null staging ids. -/
theorem fact_null_event_id_blocks_inserts (w : Warehouse)
    (h : ∃ f ∈ w.fact_events, f.event_id = none) :
    factStep w = Except.ok [] := by
  apply factNewRows_all_blocked
  intro s _
  obtain ⟨f, hf, hfe⟩ := h
  cases hsid : s.id with
  | none => simp [factGuard, hsid]
  | some i =>
    have h2 : (w.fact_events.all fun g => decide (g.event_id ≠ none)) = false := by
      cases hall : w.fact_events.all fun g => decide (g.event_id ≠ none) with
      | false => rfl
      | true =>
        rw [List.all_eq_true] at hall
        have := hall f hf
        simp [hfe] at this
    have hred : factGuard w.fact_events s = idGuard w.fact_events i := by
      simp only [factGuard, hsid]
    rw [hred, idGuard, h2, Bool.and_false]

/-- C10 witness: a fact table holding one null-id row blocks the insertion
of a staging row with the fresh id `1`. -/
theorem fact_null_event_id_blocks_inserts_witness :
    factStep wNullFact = Except.ok [] :=
  fact_null_event_id_blocks_inserts wNullFact (by decide)

/-- C3: a staging row whose non-null timestamp text does not parse under
`%Y-%m-%d %H:%M:%E*S` makes the whole fact `INSERT` error — the code uses
`PARSE_TIMESTAMP`, not `SAFE.PARSE_TIMESTAMP`, so the batch aborts instead
of degrading that row to a null timestamp and null time key. -/
theorem fact_step_errors_on_unparsable_timestamp :
    factStep wBadTs = Except.error "not-a-date" := by
  decide

/-- C1 counterexample: a staging batch carrying the same qualifying id `7`
on two rows makes the first reconciliation run insert two fact rows with
event id `7` (the `NOT IN` subquery reads the pre-statement table), so
"each qualifying event id exactly once across both runs combined" fails. -/
theorem fact_run_duplicate_ids_counterexample :
    okFactCount (factStep wDupIds) 7 = 2 := by
  decide

/-- C1 (amended): with key-unique dimension tables and a staging batch
whose non-null ids are pairwise distinct, fact reconciliation (a) inserts
a row only if its event id is non-null and nowhere in the entire existing
fact table, (b) inserts nothing at all on a second run over the same
batch, and (c) inserts exactly one row in the first run for each
qualifying id — one carried by the batch and admitted by the `NOT IN`
guard. -/
theorem fact_reconciliation_idempotent_amended (w : Warehouse) (L1 : List FactRow)
    (hd : DimsUnique w)
    (hnd : (w.staging.filterMap fun s => s.id).Nodup)
    (h1 : factStep w = Except.ok L1) :
    (∀ r ∈ L1, ∃ i : Int, r.event_id = some i
        ∧ ∀ f ∈ w.fact_events, f.event_id ≠ some i)
    ∧ factStep (applyFact w L1) = Except.ok []
    ∧ ∀ i : Int, (w.staging.any fun s => decide (s.id = some i)) = true →
        idGuard w.fact_events i = true →
        L1.countP (fun r => decide (r.event_id = some i)) = 1 := by
  refine ⟨?_, ?_, ?_⟩
  · intro r hr
    obtain ⟨s, -, hg, hrid⟩ := factNewRows_mem w w.staging L1 h1 r hr
    cases hsid : s.id with
    | none => simp [factGuard, hsid] at hg
    | some i =>
      simp only [factGuard, hsid] at hg
      rw [idGuard, Bool.and_eq_true] at hg
      refine ⟨i, by rw [hrid, hsid], ?_⟩
      intro f hf
      have hall := hg.1
      rw [List.all_eq_true] at hall
      simpa using hall f hf
  · apply factNewRows_all_blocked
    intro s hs
    cases hsid : s.id with
    | none => simp [factGuard, hsid]
    | some i =>
      show factGuard (w.fact_events ++ L1) s = false
      have hred : factGuard (w.fact_events ++ L1) s = idGuard (w.fact_events ++ L1) i := by
        simp only [factGuard, hsid]
      rw [hred]
      cases hgi : idGuard (w.fact_events ++ L1) i with
      | false => rfl
      | true =>
        exfalso
        rw [idGuard_append, Bool.and_eq_true] at hgi
        have hgw : factGuard w.fact_events s = true := by
          simp only [factGuard, hsid]
          exact hgi.1
        obtain ⟨r, hrL, hrid⟩ := factNewRows_covers w w.staging L1 h1 s hs hgw
        have hgi2 := hgi.2
        rw [idGuard, Bool.and_eq_true] at hgi2
        have hL1 := hgi2.1
        rw [List.all_eq_true] at hL1
        have := hL1 r hrL
        rw [hrid, hsid] at this
        simp at this
  · intro i hany hgi
    rw [factNewRows_count w w.staging L1 i hd hnd h1, hany, hgi]
    rfl

/-- C1 witness: the amended statement instantiated at a one-row batch with
id `3` over an empty warehouse. -/
theorem fact_reconciliation_idempotent_amended_witness :
    (∀ r ∈ [rSingle3], ∃ i : Int, r.event_id = some i
        ∧ ∀ f ∈ wSingle3.fact_events, f.event_id ≠ some i)
    ∧ factStep (applyFact wSingle3 [rSingle3]) = Except.ok []
    ∧ ∀ i : Int, (wSingle3.staging.any fun s => decide (s.id = some i)) = true →
        idGuard wSingle3.fact_events i = true →
        List.countP (fun r => decide (r.event_id = some i)) [rSingle3] = 1 :=
  fact_reconciliation_idempotent_amended wSingle3 [rSingle3]
    ⟨by decide, by decide, by decide, by decide, by decide⟩ (by decide) (by decide)

/-- C5 counterexample: a staging batch carrying the same non-null id `9`
on two rows makes the reconciliation step produce two fact rows with the
same `event_id`, so the claimed all-time uniqueness fails on the code for
within-batch duplicates. -/
theorem fact_event_id_duplicate_counterexample :
    okFactCount (factStep wDupIds9) 9 = 2 := by
  decide

/-- C5 (amended): with key-unique dimension tables and a staging batch
whose non-null ids are pairwise distinct, a successful reconciliation step
never produces two fact rows with the same `event_id` and never inserts a
row whose `event_id` is already present in the fact table. -/
theorem fact_event_id_unique_amended (w : Warehouse) (L1 : List FactRow)
    (hd : DimsUnique w)
    (hnd : (w.staging.filterMap fun s => s.id).Nodup)
    (h1 : factStep w = Except.ok L1) :
    (∀ i : Int, L1.countP (fun r => decide (r.event_id = some i)) ≤ 1)
    ∧ ∀ r ∈ L1, ∀ f ∈ w.fact_events, f.event_id ≠ r.event_id := by
  constructor
  · intro i
    rw [factNewRows_count w w.staging L1 i hd hnd h1]
    by_cases hc : ((w.staging.any fun s => decide (s.id = some i))
        && idGuard w.fact_events i) = true
    · rw [if_pos hc]
    · rw [if_neg hc]
      exact Nat.zero_le 1
  · intro r hr f hf
    obtain ⟨s, -, hg, hrid⟩ := factNewRows_mem w w.staging L1 h1 r hr
    cases hsid : s.id with
    | none => simp [factGuard, hsid] at hg
    | some i =>
      simp only [factGuard, hsid] at hg
      rw [idGuard, Bool.and_eq_true] at hg
      have hall := hg.1
      rw [List.all_eq_true] at hall
      have := hall f hf
      rw [hrid, hsid]
      simpa using this

/-- C5 witness: the amended statement instantiated at a one-row batch with
id `4` over an empty warehouse. -/
theorem fact_event_id_unique_amended_witness :
    (∀ i : Int, List.countP (fun r => decide (r.event_id = some i)) [rSingle4] ≤ 1)
    ∧ ∀ r ∈ [rSingle4], ∀ f ∈ wSingle4.fact_events, f.event_id ≠ r.event_id :=
  fact_event_id_unique_amended wSingle4 [rSingle4]
    ⟨by decide, by decide, by decide, by decide, by decide⟩ (by decide) (by decide)

/-! ### Properties of the normalizer -/

/-- The `Int64`-cast error path is real in the model: a batch satisfying
every column-presence and string-dtype condition but carrying the
non-integral id `"1.5"` makes `preprocess_dataframe` raise at line 95. -/
theorem preprocess_nonintegral_id_errors :
    preprocess batchBadId
      = Except.error "TypeError: cannot safely cast non-equivalent float64 to int64" := by
  decide

/-- Splitting a slash-free segment yields that single segment. -/
theorem splitSlash_no_slash (x : List Char) (h : '/' ∉ x) : splitSlash x = [x] := by
  induction x with
  | nil => rfl
  | cons c t ih =>
    have hc : ¬ (c = '/') := fun hh => h (hh ▸ List.mem_cons_self c t)
    have ht : splitSlash t = [t] := ih fun hm => h (List.mem_cons_of_mem c hm)
    simp [splitSlash, hc, ht]

/-- Splitting distributes over a separator following a slash-free head
segment. -/
theorem splitSlash_append (x r : List Char) (h : '/' ∉ x) :
    splitSlash (x ++ '/' :: r) = x :: splitSlash r := by
  induction x with
  | nil => simp [splitSlash]
  | cons c t ih =>
    have hc : ¬ (c = '/') := fun hh => h (hh ▸ List.mem_cons_self c t)
    have ht := ih fun hm => h (List.mem_cons_of_mem c hm)
    simp [splitSlash, hc, ht]

/-- Splitting inverts joining for a nonempty list of slash-free segments. -/
theorem splitSlash_joinSlash (xs : List (List Char)) (hne : xs ≠ [])
    (h : ∀ x ∈ xs, '/' ∉ x) : splitSlash (joinSlash xs) = xs := by
  induction xs with
  | nil => exact absurd rfl hne
  | cons x t ih =>
    cases t with
    | nil => simpa [joinSlash] using splitSlash_no_slash x (h x (List.mem_cons_self x []))
    | cons y t2 =>
      rw [joinSlash, splitSlash_append x _ (h x (List.mem_cons_self x (y :: t2))),
        ih (by simp) fun z hz => h z (List.mem_cons_of_mem x hz)]

/-- `dropWhile` keeps a list whose head fails the predicate. -/
theorem dropWhile_keep {α : Type} (p : α → Bool) (l : List α)
    (h : ∀ c, l.head? = some c → p c = false) : l.dropWhile p = l := by
  cases l with
  | nil => rfl
  | cons a t =>
    rw [List.dropWhile_cons, h a rfl]
    simp

/-- Stripping the surrounding slashes of `'/' ++ m ++ '/'` recovers `m`
when `m` itself neither starts nor ends with a slash. -/
theorem trimSlash_wrap (m : List Char) (hm : m ≠ [])
    (hh : ∀ c, m.head? = some c → c ≠ '/')
    (hl : ∀ c, m.getLast? = some c → c ≠ '/') :
    trimSlash ('/' :: m ++ ['/']) = m := by
  obtain ⟨c, m2, rfl⟩ := List.exists_cons_of_ne_nil hm
  have hc : ¬ (c = '/') := hh c rfl
  have e1 : (('/' : Char) :: (c :: m2) ++ ['/']).dropWhile (fun a => a = '/')
      = (c :: m2) ++ ['/'] := by
    rw [List.cons_append, List.dropWhile_cons, if_pos (by decide), List.cons_append,
      List.dropWhile_cons, if_neg (by simp [hc])]
  have e2 : ((c :: m2) ++ ['/']).reverse = '/' :: (c :: m2).reverse := by
    simp
  have e3 : (('/' : Char) :: (c :: m2).reverse).dropWhile (fun a => a = '/')
      = (c :: m2).reverse := by
    rw [List.dropWhile_cons, if_pos (by decide)]
    apply dropWhile_keep
    intro a ha
    rw [List.head?_reverse] at ha
    simpa using hl a ha
  unfold trimSlash
  rw [e1, e2, e3, List.reverse_reverse]

/-- The joined path starts with the first character of its (nonempty)
first segment. -/
theorem joinSlash_head (a : Char) (m : List Char) (t : List (List Char)) :
    (joinSlash ((a :: m) :: t)).head? = some a := by
  cases t with
  | nil => rfl
  | cons y t2 => rfl

/-- The joined path ends with the last character of its last segment,
provided every segment is nonempty. -/
theorem joinSlash_getLast (t : List (List Char)) :
    ∀ x, x ≠ [] → (∀ z ∈ t, z ≠ []) →
      (joinSlash (x :: t)).getLast? = ((x :: t).getLastD []).getLast? := by
  induction t with
  | nil =>
    intro x _ _
    rfl
  | cons y t2 ih =>
    intro x hx hall
    have hy : y ≠ [] := hall y (List.mem_cons_self y t2)
    have hjoin_ne : joinSlash (y :: t2) ≠ [] := by
      obtain ⟨a, m, rfl⟩ := List.exists_cons_of_ne_nil hy
      intro hcon
      have := joinSlash_head a m t2
      rw [hcon] at this
      cases this
    have step : joinSlash (x :: y :: t2) = x ++ '/' :: joinSlash (y :: t2) := rfl
    rw [step, List.getLast?_append_of_ne_nil x (by simp)]
    have : (('/' : Char) :: joinSlash (y :: t2)).getLast? = (joinSlash (y :: t2)).getLast? := by
      obtain ⟨b, r, hbr⟩ := List.exists_cons_of_ne_nil hjoin_ne
      rw [hbr, List.getLast?_cons_cons]
    rw [this, ih y hy fun z hz => hall z (List.mem_cons_of_mem y hz)]
    rfl

/-- C9 counterexample: the code does not normalize a literal empty
category string to null — `''.split('/')` is `['']`, so `category_l1`
comes out as the empty string, not null. -/
theorem category_empty_string_counterexample :
    catLevel 0 "" = some "" ∧ ¬ catLevel 0 "" = none := by
  decide

/-- C9 (amended): category splitting strips every leading and trailing
`/`, splits on `/`, and takes the first three segments as
`category_l1..l3`, leaving later levels null when segments run out; a
literal empty string, however, yields `category_l1 = ""` (the empty
string, not null) with levels 2 and 3 null.  Splitting inverts joining:
wrapping any nonempty list of nonempty slash-free segments in slashes and
splitting recovers exactly those segments. -/
theorem category_split_amended :
    (catLevel 0 "/News/World/Europe/" = some "News"
      ∧ catLevel 1 "/News/World/Europe/" = some "World"
      ∧ catLevel 2 "/News/World/Europe/" = some "Europe")
    ∧ (catLevel 0 "" = some "" ∧ catLevel 1 "" = none ∧ catLevel 2 "" = none)
    ∧ (catLevel 0 "A/B" = some "A" ∧ catLevel 1 "A/B" = some "B"
      ∧ catLevel 2 "A/B" = none)
    ∧ ∀ xs : List (List Char), xs ≠ [] → (∀ x ∈ xs, x ≠ [] ∧ '/' ∉ x) →
        splitSlash (trimSlash ('/' :: joinSlash xs ++ ['/'])) = xs := by
  refine ⟨by decide, by decide, by decide, ?_⟩
  intro xs hne hx
  obtain ⟨x, t, rfl⟩ := List.exists_cons_of_ne_nil hne
  have hx0 : x ≠ [] := (hx x (List.mem_cons_self x t)).1
  obtain ⟨a, m, rfl⟩ := List.exists_cons_of_ne_nil hx0
  have hwrap : trimSlash ('/' :: joinSlash ((a :: m) :: t) ++ ['/'])
      = joinSlash ((a :: m) :: t) := by
    apply trimSlash_wrap
    · intro hcon
      have := joinSlash_head a m t
      rw [hcon] at this
      cases this
    · intro ch hch hslash
      rw [joinSlash_head a m t, Option.some.injEq] at hch
      refine (hx (a :: m) (List.mem_cons_self _ t)).2 ?_
      rw [show a = '/' from hch.trans hslash]
      exact List.mem_cons_self _ _
    · intro ch hch
      rw [joinSlash_getLast t (a :: m) (by simp)
        (fun z hz => (hx z (List.mem_cons_of_mem _ hz)).1)] at hch
      rw [List.getLastD_cons] at hch
      have hzlast : t.getLastD (a :: m) ∈ (a :: m) :: t :=
        List.getLastD_mem_cons t (a :: m)
      have hzprops := hx _ hzlast
      have hchmem := List.mem_of_mem_getLast? hch
      intro hslash
      exact hzprops.2 (hslash ▸ hchmem)
  rw [hwrap]
  exact splitSlash_joinSlash _ (by simp) fun z hz => (hx z hz).2

/-- C9 witness: the join-split round trip instantiated at the concrete
segment list `[News, World]`. -/
theorem category_split_amended_witness :
    splitSlash (trimSlash ('/' :: joinSlash [['N'], ['W']] ++ ['/'])) = [['N'], ['W']] :=
  category_split_amended.2.2.2 [['N'], ['W']] (by decide) (by decide)

/-- `takeWhile` of a satisfied run followed by a failing head keeps
exactly the run. -/
theorem takeWhile_all_append {α : Type} (p : α → Bool) (l r : List α)
    (hl : ∀ a ∈ l, p a = true) (hr : ∀ c, r.head? = some c → p c = false) :
    (l ++ r).takeWhile p = l := by
  induction l with
  | nil =>
    rw [List.nil_append]
    cases r with
    | nil => rfl
    | cons c t =>
      rw [List.takeWhile_cons, hr c rfl]
      rfl
  | cons a t ih =>
    rw [List.cons_append, List.takeWhile_cons, hl a (List.mem_cons_self a t)]
    rw [ih fun b hb => hl b (List.mem_cons_of_mem a hb)]
    rfl

/-- `dropWhile` of a satisfied run followed by a failing head drops
exactly the run. -/
theorem dropWhile_all_append {α : Type} (p : α → Bool) (l r : List α)
    (hl : ∀ a ∈ l, p a = true) (hr : ∀ c, r.head? = some c → p c = false) :
    (l ++ r).dropWhile p = r := by
  induction l with
  | nil =>
    rw [List.nil_append]
    exact dropWhile_keep p r hr
  | cons a t ih =>
    rw [List.cons_append, List.dropWhile_cons, hl a (List.mem_cons_self a t)]
    rw [ih fun b hb => hl b (List.mem_cons_of_mem a hb)]
    rfl

/-- A successful anchored match has the `digits ++ x ++ digits` shape and
is an initial segment of the scanned list. -/
theorem dimAt_eq_some (cs m : List Char) (h : dimAt cs = some m) :
    ∃ d1 d2 v, isDimParts d1 d2 ∧ m = d1 ++ 'x' :: d2 ∧ cs = m ++ v := by
  unfold dimAt at h
  split at h
  · cases h
  · rename_i d1 r2 heq1 heq2
    split at h
    · cases h
    · rename_i heq3
      rw [Option.some.injEq] at h
      refine ⟨cs.takeWhile (fun c => c.isDigit), r2.takeWhile (fun c => c.isDigit),
        r2.dropWhile (fun c => c.isDigit), ⟨heq2, heq3, ?_, ?_⟩, h.symm, ?_⟩
      · intro c hc
        exact List.mem_takeWhile_imp hc
      · intro c hc
        exact List.mem_takeWhile_imp hc
      · rw [← h]
        calc cs
            = cs.takeWhile (fun c => c.isDigit) ++ cs.dropWhile (fun c => c.isDigit) :=
              (List.takeWhile_append_dropWhile _ _).symm
          _ = cs.takeWhile (fun c => c.isDigit) ++ 'x' :: r2 := by rw [heq1]
          _ = cs.takeWhile (fun c => c.isDigit) ++ 'x'
                :: (r2.takeWhile (fun c => c.isDigit) ++ r2.dropWhile (fun c => c.isDigit)) := by
              rw [List.takeWhile_append_dropWhile]
          _ = (cs.takeWhile (fun c => c.isDigit) ++ 'x' :: r2.takeWhile (fun c => c.isDigit))
                ++ r2.dropWhile (fun c => c.isDigit) := by simp
  · cases h

/-- An anchored-match decomposition at the head makes `dimAt` succeed. -/
theorem dimAt_ne_none_of_decomp (cs d1 d2 v : List Char) (hp : isDimParts d1 d2)
    (hcs : cs = d1 ++ 'x' :: (d2 ++ v)) : dimAt cs ≠ none := by
  obtain ⟨h1, h2, hd1, hd2⟩ := hp
  obtain ⟨a, d1t, rfl⟩ := List.exists_cons_of_ne_nil h1
  obtain ⟨b, d2t, rfl⟩ := List.exists_cons_of_ne_nil h2
  have hhead : ∀ c : Char, (('x' :: ((b :: d2t) ++ v)).head? = some c) →
      (fun c => c.isDigit) c = false := by
    intro c hc
    rw [List.head?_cons, Option.some.injEq] at hc
    subst hc
    decide
  have htw : cs.takeWhile (fun c => c.isDigit) = a :: d1t := by
    rw [hcs]
    exact takeWhile_all_append _ _ _ hd1 hhead
  have hdw : cs.dropWhile (fun c => c.isDigit) = 'x' :: ((b :: d2t) ++ v) := by
    rw [hcs]
    exact dropWhile_all_append _ _ _ hd1 hhead
  have hinner : ((b :: d2t) ++ v).takeWhile (fun c => c.isDigit)
      = b :: ((d2t ++ v).takeWhile (fun c => c.isDigit)) := by
    rw [List.cons_append, List.takeWhile_cons, hd2 b (List.mem_cons_self b d2t)]
    rfl
  intro hnone
  unfold dimAt at hnone
  rw [htw, hdw] at hnone
  simp only [hinner] at hnone
  simp at hnone

/-- The leftmost scan fails exactly when no `digits x digits` substring
occurs anywhere in the list. -/
theorem scanDim_none_iff (cs : List Char) :
    scanDim cs = none
      ↔ ¬ ∃ u d1 d2 v, isDimParts d1 d2 ∧ cs = u ++ (d1 ++ 'x' :: (d2 ++ v)) := by
  induction cs with
  | nil =>
    simp only [scanDim, true_iff]
    rintro ⟨u, d1, d2, v, ⟨h1, -, -, -⟩, hcs⟩
    have h0 := List.append_eq_nil.1 hcs.symm
    have h2 := List.append_eq_nil.1 h0.2
    exact h1 h2.1
  | cons c rest ih =>
    simp only [scanDim]
    cases hda : dimAt (c :: rest) with
    | some m =>
      constructor
      · intro hcon
        cases hcon
      · intro hnp
        exfalso
        obtain ⟨d1, d2, v, hp, hm, hcl⟩ := dimAt_eq_some _ _ hda
        refine hnp ⟨[], d1, d2, v, hp, ?_⟩
        rw [List.nil_append, hcl, hm]
        simp
    | none =>
      rw [ih]
      constructor
      · rintro hnp ⟨u, d1, d2, v, hp, hcs⟩
        cases u with
        | nil =>
          rw [List.nil_append] at hcs
          exact dimAt_ne_none_of_decomp _ d1 d2 v hp hcs hda
        | cons c2 u2 =>
          rw [List.cons_append] at hcs
          injection hcs with hc1 hc2
          exact hnp ⟨u2, d1, d2, v, hp, hc2⟩
      · rintro hnp ⟨u, d1, d2, v, hp, hcs⟩
        exact hnp ⟨c :: u, d1, d2, v, hp, by rw [List.cons_append, hcs]⟩

/-- A successful leftmost scan returns a `digits ++ x ++ digits` string
that occurs as a substring of the input. -/
theorem scanDim_some_shape (cs m : List Char) (h : scanDim cs = some m) :
    ∃ d1 d2, isDimParts d1 d2 ∧ m = d1 ++ 'x' :: d2 ∧ ∃ u v, cs = u ++ (m ++ v) := by
  induction cs generalizing m with
  | nil => cases h
  | cons c rest ih =>
    simp only [scanDim] at h
    cases hda : dimAt (c :: rest) with
    | some m2 =>
      rw [hda] at h
      simp only [Option.some.injEq] at h
      subst h
      obtain ⟨d1, d2, v, hp, hm, hcl⟩ := dimAt_eq_some _ _ hda
      exact ⟨d1, d2, hp, hm, [], v, by rw [List.nil_append, hcl]⟩
    | none =>
      rw [hda] at h
      obtain ⟨d1, d2, hp, hm, u, v, hcs⟩ := ih m h
      exact ⟨d1, d2, hp, hm, c :: u, v, by rw [List.cons_append, hcs]⟩

/-- The suffix-strip either leaves the list unchanged or removes exactly
one end-anchored `_ ++ digits ++ x ++ digits` suffix. -/
theorem stripDim_cases (cs : List Char) :
    stripDim cs = cs ∨ ∃ p d1 d2, isDimParts d1 d2
      ∧ cs = p ++ '_' :: (d1 ++ 'x' :: d2) ∧ stripDim cs = p := by
  unfold stripDim
  split
  all_goals try exact Or.inl rfl
  split
  all_goals try exact Or.inl rfl
  rename_i x3 x2 h1 t1 r2 htw hdw x1 x0 h2 t2 r4 htw2 hdw2
  refine Or.inr ⟨r4.reverse, (List.takeWhile (fun c => c.isDigit) r2).reverse,
    (List.takeWhile (fun c => c.isDigit) cs.reverse).reverse, ⟨?_, ?_, ?_, ?_⟩, ?_, rfl⟩
  · rw [htw2]
    simp
  · rw [htw]
    simp
  · intro ch hch
    rw [List.mem_reverse] at hch
    exact List.mem_takeWhile_imp hch
  · intro ch hch
    rw [List.mem_reverse] at hch
    exact List.mem_takeWhile_imp hch
  · have er2 : r2 = List.takeWhile (fun c => c.isDigit) r2 ++ '_' :: r4 := by
      conv_lhs => rw [← List.takeWhile_append_dropWhile (fun c => c.isDigit) r2]
      rw [hdw2]
    have e1 : cs.reverse = List.takeWhile (fun c => c.isDigit) cs.reverse
        ++ 'x' :: (List.takeWhile (fun c => c.isDigit) r2 ++ '_' :: r4) := by
      conv_lhs => rw [← List.takeWhile_append_dropWhile (fun c => c.isDigit) cs.reverse]
      rw [hdw, ← er2]
    conv_lhs => rw [← List.reverse_reverse cs, e1]
    simp [List.reverse_append]

/-- C8 counterexample: `"300x250_banner"` has no end-anchored
`_digitsxdigits` suffix — `banner_name` stays unchanged — yet
`str.extract(r'(\d+x\d+)')` still finds `"300x250"` at the front, so the
claimed "size only from an end-anchored suffix, else null" fails. -/
theorem banner_size_not_anchored_counterexample :
    bannerSizeOfStr "300x250_banner" = some "300x250"
    ∧ bannerNameOfStr "300x250_banner" = "300x250_banner" := by
  decide

/-- C8 (amended): `banner_size` is the leftmost `digits x digits`
substring occurring anywhere in the identifier — null exactly when no such
substring exists — while `banner_name` strips one end-anchored
`_digitsxdigits` suffix when present and is otherwise the unchanged
identifier; the spec's two examples hold. -/
theorem banner_decomposition_amended :
    (bannerSizeOfStr "sidebar_ad_300x250" = some "300x250"
      ∧ bannerNameOfStr "sidebar_ad_300x250" = "sidebar_ad")
    ∧ (bannerSizeOfStr "header_banner" = none
      ∧ bannerNameOfStr "header_banner" = "header_banner")
    ∧ (∀ cs : List Char, scanDim cs = none
        ↔ ¬ ∃ u d1 d2 v, isDimParts d1 d2 ∧ cs = u ++ (d1 ++ 'x' :: (d2 ++ v)))
    ∧ (∀ cs m : List Char, scanDim cs = some m →
        ∃ d1 d2, isDimParts d1 d2 ∧ m = d1 ++ 'x' :: d2 ∧ ∃ u v, cs = u ++ (m ++ v))
    ∧ (∀ cs : List Char, stripDim cs = cs ∨ ∃ p d1 d2, isDimParts d1 d2
        ∧ cs = p ++ '_' :: (d1 ++ 'x' :: d2) ∧ stripDim cs = p) :=
  ⟨⟨by decide, by decide⟩, ⟨by decide, by decide⟩,
    scanDim_none_iff, scanDim_some_shape, stripDim_cases⟩

/-- C8 witness: the substring-shape conjunct instantiated at the concrete
scan of `"a3x4"`, whose leftmost match is `"3x4"`. -/
theorem banner_decomposition_amended_witness :
    ∃ d1 d2, isDimParts d1 d2 ∧ ['3', 'x', '4'] = d1 ++ 'x' :: d2
      ∧ ∃ u v, ['a', '3', 'x', '4'] = u ++ (['3', 'x', '4'] ++ v) :=
  banner_decomposition_amended.2.2.2.1 ['a', '3', 'x', '4'] ['3', 'x', '4'] (by decide)
